import Mathlib

/-!
Shallow embedding of the tiup core under verification: the `run` command
(version resolution, on-demand download, process launch/persist/signal
handling) and the playground control client (command construction and
dispatch).  Pure Go functions become Lean functions; external collaborators
(profile storage, repository, network, OS) become explicit oracle
parameters, and each fallible step returns `Option`/`Except`.
-/

open Batteries

namespace Tiup

/-! ### Semantic version comparison

Embedding of `golang.org/x/mod/semver` as used by `downloadIfMissing`
(`sort.Slice` with `semver.Compare(versions[i], versions[j]) < 0`).

A parsed version is reduced to a comparison key.  `parse` guarantees that
the numeric fields and numeric prerelease identifiers are canonical decimal
numerals (no leading zeros), so Go's `compareInt` (length, then bytewise
order) coincides with `Nat` comparison, and Go's bytewise string order on
the ASCII alphanumeric identifiers coincides with lexicographic `Char`
order on their character lists. -/

/-- A prerelease identifier: numeric (compared as a number, always below
alphanumeric) or alphanumeric (compared bytewise). -/
inductive SvIdent where
  | num (n : Nat)
  | alpha (s : List Char)
  deriving DecidableEq, Repr

/-- Lexicographic comparison of identifier lists, mirroring the loop of
`comparePrerelease`: compare identifier by identifier, and if one side runs
out first it is smaller. -/
def cmpList (cmp : α → α → Ordering) : List α → List α → Ordering
  | [], [] => .eq
  | [], _ :: _ => .lt
  | _ :: _, [] => .gt
  | a :: as, b :: bs => (cmp a b).then (cmpList cmp as bs)

/-- `comparePrerelease` identifier comparison: a numeric identifier is below
any alphanumeric one; numeric ones compare as numbers; alphanumeric ones
compare bytewise. -/
def cmpIdent : SvIdent → SvIdent → Ordering
  | .num a, .num b => compare a b
  | .num _, .alpha _ => .lt
  | .alpha _, .num _ => .gt
  | .alpha a, .alpha b => cmpList compare a b

/-- `comparePrerelease` on the whole prerelease part: a version without a
prerelease (`none`) is above any version with one. -/
def cmpPre : Option (List SvIdent) → Option (List SvIdent) → Ordering
  | none, none => .eq
  | none, some _ => .gt
  | some _, none => .lt
  | some a, some b => cmpList cmpIdent a b

/-- The comparison key of a valid version: major, minor, patch and
prerelease.  Build metadata is validated by `parse` but ignored by
`Compare`, so it is not part of the key. -/
structure SvKey where
  major : Nat
  minor : Nat
  patch : Nat
  prerelease : Option (List SvIdent)
  deriving DecidableEq, Repr

/-- Field-by-field comparison of two parsed versions, as in `Compare`:
major, then minor, then patch, then prerelease. -/
def cmpKey : SvKey → SvKey → Ordering :=
  compareLex (Ordering.byKey SvKey.major compare)
    (compareLex (Ordering.byKey SvKey.minor compare)
      (compareLex (Ordering.byKey SvKey.patch compare)
        (Ordering.byKey SvKey.prerelease cmpPre)))

/-- Comparison lifted to parse results, as in `Compare`: an invalid version
(parse failure) is below every valid one, and two invalid versions compare
equal. -/
def cmpParsed (cmp : α → α → Ordering) : Option α → Option α → Ordering
  | none, none => .eq
  | none, some _ => .lt
  | some _, none => .gt
  | some a, some b => cmp a b

/-- Value of a canonical decimal numeral. -/
def digitsToNat (l : List Char) : Nat :=
  l.foldl (fun n d => n * 10 + (d.toNat - '0'.toNat)) 0

/-- `parseInt`: a nonempty string of leading decimal digits, with no leading
zero unless the numeral is exactly `0`; returns the value and the rest. -/
def parseIntL : List Char → Option (Nat × List Char)
  | [] => none
  | c :: rest =>
    if c.isDigit then
      let ds := rest.takeWhile Char.isDigit
      if c = '0' && !ds.isEmpty then none
      else some (digitsToNat (c :: ds), rest.dropWhile Char.isDigit)
    else none

/-- `isIdentChar`: ASCII letters, digits and `-`. -/
def isIdentChar (c : Char) : Bool :=
  ('A' ≤ c && c ≤ 'Z') || ('a' ≤ c && c ≤ 'z') || c.isDigit || c = '-'

/-- `isBadNum`: all digits, longer than one character, with a leading zero. -/
def isBadNum (l : List Char) : Bool :=
  l.all Char.isDigit && decide (1 < l.length) && l.headD ' ' = '0'

/-- Split a character list at every `.` (the identifier separators of the
prerelease and build sections). -/
def splitDots : List Char → List (List Char)
  | [] => [[]]
  | c :: rest =>
    if c = '.' then [] :: splitDots rest
    else
      match splitDots rest with
      | s :: ss => (c :: s) :: ss
      | [] => [[c]]

/-- Validate one prerelease identifier (`parsePrerelease` segment checks:
nonempty, ident characters only, not a numeric with leading zeros) and
classify it as numeric or alphanumeric (`isNum`). -/
def identOf (seg : List Char) : Option SvIdent :=
  if seg.isEmpty then none
  else if !(seg.all isIdentChar) then none
  else if isBadNum seg then none
  else if seg.all Char.isDigit then some (.num (digitsToNat seg))
  else some (.alpha seg)

/-- `parsePrerelease`: a `-`, then dot-separated identifiers up to the first
`+` or the end of the string. -/
def parsePrereleaseL : List Char → Option (List SvIdent × List Char)
  | '-' :: rest =>
    let body := rest.takeWhile (fun c => c != '+')
    let rem := rest.dropWhile (fun c => c != '+')
    ((splitDots body).mapM identOf).map (fun ids => (ids, rem))
  | _ => none

/-- `parseBuild`: a `+`, then dot-separated nonempty identifiers running to
the end of the string; the content is validated but discarded. -/
def parseBuildL : List Char → Option (List Char)
  | '+' :: rest =>
    if (splitDots rest).all (fun seg => !seg.isEmpty && seg.all isIdentChar) then some []
    else none
  | _ => none

/-- After the patch number: an optional prerelease (only if the next char is
`-`), then an optional build section (only if the next char is `+`), then
the string must be exhausted — exactly the tail of `parse`. -/
def afterPatch (l : List Char) : Option (Option (List SvIdent)) :=
  let step1 : Option (Option (List SvIdent) × List Char) :=
    match l with
    | '-' :: _ => (parsePrereleaseL l).map (fun p => (some p.1, p.2))
    | _ => some (none, l)
  match step1 with
  | none => none
  | some (pre, l1) =>
    let step2 : Option (List Char) :=
      match l1 with
      | '+' :: _ => parseBuildL l1
      | _ => some l1
    match step2 with
    | none => none
    | some l2 => if l2.isEmpty then some pre else none

/-- `parse`: a leading `v`, a major numeral, optionally `.minor` and then
optionally `.patch` (omitted numbers default to `0`, and prerelease/build
are only accepted after a patch number), reduced to the comparison key.
`none` is a parse failure (invalid version). -/
def verKey? (s : String) : Option SvKey :=
  match s.data with
  | 'v' :: r0 =>
    match parseIntL r0 with
    | none => none
    | some (maj, r1) =>
      match r1 with
      | [] => some ⟨maj, 0, 0, none⟩
      | '.' :: r2 =>
        match parseIntL r2 with
        | none => none
        | some (mino, r3) =>
          match r3 with
          | [] => some ⟨maj, mino, 0, none⟩
          | '.' :: r4 =>
            match parseIntL r4 with
            | none => none
            | some (pat, r5) =>
              match afterPatch r5 with
              | none => none
              | some pre => some ⟨maj, mino, pat, pre⟩
          | _ => none
      | _ => none
  | _ => none

/-- `semver.Compare` as an `Ordering`: parse both sides and compare the
results (`cmpParsed` holds the invalid-below-valid cases). -/
def semverCmpO (v w : String) : Ordering :=
  Ordering.byKey verKey? (cmpParsed cmpKey) v w

/-- `semver.Compare`, returning `-1`, `0` or `+1` as the Go function does. -/
def semverCompare (v w : String) : Int :=
  match semverCmpO v w with
  | .lt => -1
  | .eq => 0
  | .gt => 1

/-- The order in which `sort.Slice` may place `a` before `b`: the negation
of `less b a`, i.e. `semver.Compare(b, a) ≮ 0`. -/
def svLE (a b : String) : Prop := semverCmpO b a ≠ .lt

instance : DecidableRel svLE := fun a b => by unfold svLE; infer_instance

/-! ### Version resolution and on-demand download (`downloadIfMissing`) -/

/-- Modelled from the spec: `meta.Version` (package `pkg/meta`, outside the
sources embedded here) is an immutable semantic-version string; the empty
string means "unspecified — resolve to latest" (`IsEmpty`). -/
abbrev Version := String

/-- The version-resolution block of `downloadIfMissing`: with an empty
requested version and a nonempty installed list, sort the installed
versions ascending under `semver.Compare` and take the last element; then
`needDownload` is true iff the (possibly updated) version is still empty or
is not among the installed versions.  `sort.Slice` is an unspecified
comparison sort; it is embedded as an insertion sort with respect to the
same ordering, which agrees with any comparison sort up to the relative
order of elements that compare equal. -/
def resolveVersion (version : Version) (versions : List String) : Version × Bool :=
  let version :=
    if version = "" ∧ versions ≠ [] then
      (List.insertionSort svLE versions).getLastD ""
    else version
  let needDownload :=
    if version = "" then true
    else !(versions.contains version)
  (version, needDownload)

/-- Modelled from the spec: the result of `repository.ComponentVersions` —
the remote per-component catalog, carrying a version list and a designated
latest version (`manifest.LatestVersion()`). -/
structure CompManifest where
  versions : List String
  latest : String
  deriving DecidableEq, Repr

/-- Oracle results for the external collaborators called by
`downloadIfMissing`: the remote repository and the local profile. -/
structure RepoEnv where
  componentVersions : Except String CompManifest
  saveVersionsErr : Option String
  downloadErr : Option String
  binaryPath : String → Except String String

/-- Observable effect trace of one `downloadIfMissing` call: whether the
remote catalog was fetched, whether it was persisted, and the artifact
specs passed to `DownloadComponent`, in order. -/
structure FetchTrace where
  manifestFetched : Bool
  savedVersions : Bool
  downloads : List String
  deriving DecidableEq, Repr

/-- `downloadIfMissing(component, version)`: read the installed versions,
resolve the version against them, and only when `needDownload` holds fetch
the remote catalog, persist it, adopt the catalog's latest version if the
version is still empty, and issue one download for `"component:version"`;
finally resolve the binary path.  Every failing step returns immediately
(`errors.Trace` leaves the message unchanged). -/
def downloadIfMissing (component : String) (version : Version)
    (installed : Except String (List String)) (env : RepoEnv) :
    Except String String × FetchTrace :=
  match installed with
  | .error e => (.error e, ⟨false, false, []⟩)
  | .ok versions =>
    let rv := resolveVersion version versions
    let version := rv.1
    let needDownload := rv.2
    if needDownload then
      match env.componentVersions with
      | .error e => (.error e, ⟨true, false, []⟩)
      | .ok manifest =>
        match env.saveVersionsErr with
        | some e => (.error e, ⟨true, true, []⟩)
        | none =>
          let version := if version = "" then manifest.latest else version
          let dspec := component ++ ":" ++ version
          match env.downloadErr with
          | some e => (.error e, ⟨true, true, [dspec]⟩)
          | none => (env.binaryPath version, ⟨true, true, [dspec]⟩)
    else (env.binaryPath version, ⟨false, false, []⟩)

/-! ### The run command: process record, persistence, and the exit/signal race -/

/-- The `process` record the run command keeps for a launched component and
serializes to the metadata file. -/
structure process where
  Component : String
  CreatedTime : String
  Pid : Int
  Exec : String
  Args : List String
  Env : List String
  Dir : String
  deriving DecidableEq, Repr

/-- The tail of `launchComponent`: `cmd.Start()` may fail, and the pid is
captured iff the OS confirmed process creation (`cmd.Process != nil`,
modelled by the `osPid` oracle); the record and the start error are
returned together. -/
def launchFinish (p : process) (startErr : Option String) (osPid : Option Int) :
    process × Option String :=
  (match osPid with
   | some pid => { p with Pid := pid }
   | none => p,
   startErr)

/-- Observable behaviour of the metadata-persistence block of the run
command, between `launchComponent` returning and the launch error being
reported. -/
structure SaveTrace where
  openAttempted : Bool
  encodeAttempted : Bool
  returned : Option String
  deriving DecidableEq, Repr

/-- The persistence block of the run command: the metadata file is opened
(and the record encoded into it) exactly when the launch succeeded or the
record exists with a nonzero observed pid; the open error is a fresh local
variable shadowing the launch error, and the encode result is discarded
(`_ =`), so the error reported afterwards is the launch error unchanged. -/
def runPersistPhase (p : Option process) (err : Option String)
    (openErr : Option String) (_encodeErr : Option String) : SaveTrace :=
  let shouldSave : Bool :=
    err.isNone || (match p with
      | some q => decide (q.Pid ≠ 0)
      | none => false)
  { openAttempted := shouldSave
    encodeAttempted := shouldSave && openErr.isNone
    returned := err }

/-- The termination-class signals the run command subscribes to with
`signal.Notify`: interrupt, kill, terminate, quit. -/
inductive Sig where
  | sigint
  | sigkill
  | sigterm
  | sigquit
  deriving DecidableEq, Repr

/-- What the race in the run command observes first: a termination signal,
or child exit (carrying the wait error, if any). -/
inductive RaceResult where
  | signal (s : Sig)
  | exited (waitErr : Option String)

/-- The action taken at the single-winner select. -/
inductive RunAction where
  | kill (pid : Int) (s : Sig)
  | finish (err : Option String)
  deriving DecidableEq, Repr

/-- The select of the run command: when a signal wins the race, kill the
child by pid — unconditionally with SIGKILL when the component is "tidb",
otherwise with exactly the signal received; when child exit wins, return
its wait error. -/
def selectOutcome (component : String) (pid : Int) : RaceResult → RunAction
  | .signal s =>
    if component = "tidb" then .kill pid .sigkill
    else .kill pid s
  | .exited e => .finish e

/-! ### Working-directory name synthesis (`base62Name`) -/

/-- The 62-symbol alphabet of `base62Name`. -/
def base62sets : String :=
  "0123456789ABCDEFGHIJKLMNOPQRSTUVWXYZabcdefghijklmnopqrstuvwxyz"

/-- One digit of `base62Name`: Go computes `int(math.Mod(float64(num), 62))`.
`float64(num)` is modelled by an arbitrary rounding `rnd` — for positive
input it yields a nonnegative integral value, however much integer
precision the conversion loses — and `math.Mod` of a nonnegative integral
value by 62 is exactly the integer remainder. -/
def base62Digit (rnd : Int → Int) (num : Int) : Nat :=
  ((rnd num).emod 62).toNat

/-- The encoding loop of `base62Name`: while `num > 0`, prepend
`sets[int(r)]` and divide `num` by 62 (Go `int64` division truncates). -/
def base62Loop (rnd : Int → Int) (num : Int) (b : List Char) : List Char :=
  if h : 0 < num then
    base62Loop rnd (num.tdiv 62) (base62sets.data.getD (base62Digit rnd num) '?' :: b)
  else b
  termination_by num.toNat
  decreasing_by
    rw [Int.tdiv_eq_ediv h.le (by norm_num), Int.toNat_lt_toNat h,
      Int.ediv_lt_iff_lt_mul (by norm_num)]
    nlinarith

/-- `base62Name` on the timestamp `num` (`time.Now().UnixNano()`, an input
here) under the float64-rounding oracle `rnd`. -/
def base62Name (rnd : Int → Int) (num : Int) : String :=
  String.mk (base62Loop rnd num [])

/-! ### Playground control commands (command.go) -/

/-- Modelled from the spec: `instance.Config` (the playground instance
package, outside the sources embedded here) — a kind's desired instance
count plus its per-instance configuration: host, configuration-file path,
binary path.  Omitted fields take the Go zero values declared here. -/
structure Config where
  Num : Int := 0
  Host : String := ""
  ConfigPath : String := ""
  BinPath : String := ""
  deriving DecidableEq, Repr

/-- The Go zero value of `Config`. -/
def zeroConfig : Config := {}

/-- `CommandType` is a string on the wire. -/
abbrev CommandType := String

/-- The `CommandType` constants of command.go. -/
def ScaleInCommandType : CommandType := "scale-in"

def ScaleOutCommandType : CommandType := "scale-out"

def DisplayCommandType : CommandType := "display"

def RestartCommandType : CommandType := "handleRestart"

def PartitionCommandType : CommandType := "handlePartition"

/-- `Command` as sent to the playground: a single struct carrying the
discriminator and the payload fields of every command type; fields a
constructor does not set keep their Go zero values. -/
structure Command where
  CommandType : CommandType
  PID : Int := 0
  ComponentID : String := ""
  Config : Config := zeroConfig
  deriving DecidableEq, Repr

/-- Modelled from the spec: `bootOptions` (playground main package, outside
the sources embedded here) — the per-kind desired counts and
configurations; only its per-kind `Config` fields feed `buildCommands`. -/
structure bootOptions where
  pd : Config := zeroConfig
  tikv : Config := zeroConfig
  pump : Config := zeroConfig
  tiflash : Config := zeroConfig
  tidb : Config := zeroConfig
  ticdc : Config := zeroConfig
  drainer : Config := zeroConfig
  deriving DecidableEq, Repr

/-- `buildCommands`: iterate the fixed kind list pd, tikv, pump, tiflash,
tidb, ticdc, drainer and, for each kind, append one command per desired
instance (`for i := 0; i < cmd.Num; i++`, hence `max(Num, 0)` copies of the
same command). -/
def buildCommands (tp : CommandType) (opt : bootOptions) : List Command :=
  let commands : List (String × Config) :=
    [("pd", opt.pd), ("tikv", opt.tikv), ("pump", opt.pump), ("tiflash", opt.tiflash),
      ("tidb", opt.tidb), ("ticdc", opt.ticdc), ("drainer", opt.drainer)]
  commands.flatMap (fun cmd =>
    List.replicate cmd.2.Num.toNat
      { CommandType := tp, ComponentID := cmd.1, Config := cmd.2 })

/-- `strconv.Atoi` as used by `partition` and `restart`: the error is
discarded, so a malformed argument yields pid 0.  (Go additionally clamps
out-of-range numerals while reporting an error; no verified property
depends on the numeric value of an out-of-range argument.) -/
def atoiOrZero (s : String) : Int :=
  match s.data with
  | [] => 0
  | '-' :: ds =>
    if ds ≠ [] ∧ ds.all Char.isDigit then -(digitsToNat ds : Int) else 0
  | '+' :: ds =>
    if ds ≠ [] ∧ ds.all Char.isDigit then (digitsToNat ds : Int) else 0
  | ds =>
    if ds.all Char.isDigit then (digitsToNat ds : Int) else 0

/-- The command list `scaleIn` builds: one scale-in command per pid, in
order. -/
def scaleInCommands (pids : List Int) : List Command :=
  pids.map (fun pid => { CommandType := ScaleInCommandType, PID := pid })

/-- The single command `display` builds. -/
def displayCommand : Command :=
  { CommandType := DisplayCommandType }

/-- The command list `partition` builds from its positional arguments. -/
def partitionCommands (args : List String) : List Command :=
  args.map (fun arg => { CommandType := PartitionCommandType, PID := atoiOrZero arg })

/-- The command list `restart` builds from its positional arguments. -/
def restartCommands (args : List String) : List Command :=
  args.map (fun arg => { CommandType := RestartCommandType, PID := atoiOrZero arg })

/-- `scaleIn(pids)`, with the port already obtained from the persisted run
state (`targetTag`, an external lookup): the commands built and the address
they are dispatched to (`"127.0.0.1:" + strconv.Itoa(port)`). -/
def scaleIn (pids : List Int) (port : Int) : List Command × String :=
  (scaleInCommands pids, "127.0.0.1:" ++ toString port)

/-- `scaleOut(args, opt)`: commands and address
(`"127.0.0.1:" + strconv.Itoa(port)`). -/
def scaleOut (opt : bootOptions) (port : Int) : List Command × String :=
  (buildCommands ScaleOutCommandType opt, "127.0.0.1:" ++ toString port)

/-- `display(args)`: a single command and the address
(`"127.0.0.1:" + strconv.Itoa(port)`). -/
def display (port : Int) : List Command × String :=
  ([displayCommand], "127.0.0.1:" ++ toString port)

/-- `partition(args)`: commands and the address exactly as the source
builds it — `"127.0.0.1" + strconv.Itoa(port)`, with no colon. -/
def partition (args : List String) (port : Int) : List Command × String :=
  (partitionCommands args, "127.0.0.1" ++ toString port)

/-- `restart(args)`: commands and the same colon-less address as
`partition` — `"127.0.0.1" + strconv.Itoa(port)`. -/
def restart (args : List String) (port : Int) : List Command × String :=
  (restartCommands args, "127.0.0.1" ++ toString port)

/-- `requestCommand`'s URL: the HTTP POST target `/command` on the given
address. -/
def commandURL (addr : String) : String :=
  "http://" ++ addr ++ "/command"

/-- What the network oracle yields for the i-th round trip of the
dispatcher: a transport error from `http.Post`, or a response body together
with the outcome of copying it to stdout. -/
inductive StepResult where
  | reqErr (e : String)
  | body (content : String) (copyErr : Option String)

/-- Observable trace of `sendCommandsAndPrintResult`: the commands actually
sent (in order), the bodies fully copied to stdout (in order), and the
returned error, if any. -/
structure DispatchTrace where
  sent : List Command
  printed : List String
  result : Option String
  deriving DecidableEq, Repr

/-- The dispatch loop: one request-response round trip per command; a
request error or a copy error returns immediately (`errors.AddStack` keeps
the message), otherwise the body is fully copied to stdout before the next
command is sent. -/
def sendLoop (net : Nat → StepResult) : List Command → Nat → DispatchTrace
  | [], _ => ⟨[], [], none⟩
  | c :: rest, i =>
    match net i with
    | .reqErr e => ⟨[c], [], some e⟩
    | .body _ (some e) => ⟨[c], [], some e⟩
    | .body content none =>
      let t := sendLoop net rest (i + 1)
      ⟨c :: t.sent, content :: t.printed, t.result⟩

/-- `sendCommandsAndPrintResult(cmds, addr)` under the network oracle. -/
def sendCommandsAndPrintResult (cmds : List Command) (net : Nat → StepResult) :
    DispatchTrace :=
  sendLoop net cmds 0

/-- Whether the i-th round trip fully succeeds (request and copy). -/
def stepOk (net : Nat → StepResult) (i : Nat) : Bool :=
  match net i with
  | .body _ none => true
  | _ => false

/-- The error of a round trip. -/
def stepErr : StepResult → Option String
  | .reqErr e => some e
  | .body _ e => e

/-- The body delivered by a round trip (empty for a failed request). -/
def stepBody : StepResult → String
  | .reqErr _ => ""
  | .body content _ => content

/-! ### Supporting lemmas -/

/-! ### The comparison is a total preorder

`sort.Slice` only produces a sorted permutation when the supplied `less`
induces a total preorder; we establish this for `semver.Compare` through
`Batteries.TransCmp`, composing the lawfulness of each layer of the key. -/

theorem cmpList_symm (cmp : α → α → Ordering) [OrientedCmp cmp] :
    ∀ (x y : List α), (cmpList cmp x y).swap = cmpList cmp y x
  | [], [] => rfl
  | [], _ :: _ => rfl
  | _ :: _, [] => rfl
  | a :: as, b :: bs => by
    simp only [cmpList, Ordering.swap_then, OrientedCmp.symm a b, cmpList_symm cmp as bs]

theorem cmpList_le_trans (cmp : α → α → Ordering) [TransCmp cmp] :
    ∀ {x y z : List α}, cmpList cmp x y ≠ .gt → cmpList cmp y z ≠ .gt →
      cmpList cmp x z ≠ .gt
  | [], _, z, _, _ => by cases z <;> simp [cmpList]
  | _ :: _, [], _, h1, _ => absurd rfl h1
  | _ :: _, _ :: _, [], _, h2 => absurd rfl h2
  | a :: as, b :: bs, c :: cs, h1, h2 => by
    simp only [cmpList, ne_eq, Ordering.then_eq_gt, not_or, not_and] at h1 h2 ⊢
    refine ⟨TransCmp.le_trans h1.1 h2.1, fun eac hgt => ?_⟩
    match hab : cmp a b with
    | .gt => exact h1.1 hab
    | .eq =>
      have hbc : cmp b c = .eq := TransCmp.cmp_congr_left hab ▸ eac
      exact cmpList_le_trans cmp (h1.2 hab) (h2.2 hbc) hgt
    | .lt =>
      have : cmp a c = .lt := TransCmp.lt_le_trans hab h2.1
      exact absurd eac (by simp [this])

instance (cmp : α → α → Ordering) [TransCmp cmp] : TransCmp (cmpList cmp) where
  symm := cmpList_symm cmp
  le_trans := cmpList_le_trans cmp

instance : TransCmp cmpIdent where
  symm x y := by
    cases x <;> cases y <;>
      simp only [cmpIdent, Ordering.swap] <;>
      first
        | rfl
        | exact OrientedCmp.symm ..
  le_trans {x y z} h1 h2 := by
    cases x <;> cases y <;> cases z <;> simp only [cmpIdent] at h1 h2 ⊢ <;>
      first
        | exact TransCmp.le_trans h1 h2
        | exact cmpList_le_trans compare h1 h2
        | simp_all

instance : TransCmp cmpPre where
  symm x y := by
    cases x <;> cases y <;>
      simp only [cmpPre, Ordering.swap] <;>
      first
        | rfl
        | exact cmpList_symm cmpIdent ..
  le_trans {x y z} h1 h2 := by
    cases x <;> cases y <;> cases z <;> simp only [cmpPre] at h1 h2 ⊢ <;>
      first
        | exact cmpList_le_trans cmpIdent h1 h2
        | simp_all

instance : TransCmp cmpKey :=
  inferInstanceAs (TransCmp (compareLex (Ordering.byKey SvKey.major compare)
    (compareLex (Ordering.byKey SvKey.minor compare)
      (compareLex (Ordering.byKey SvKey.patch compare)
        (Ordering.byKey SvKey.prerelease cmpPre)))))

instance (cmp : α → α → Ordering) [TransCmp cmp] : TransCmp (cmpParsed cmp) where
  symm x y := by
    cases x <;> cases y <;>
      simp only [cmpParsed, Ordering.swap] <;>
      first
        | rfl
        | exact OrientedCmp.symm ..
  le_trans {x y z} h1 h2 := by
    cases x <;> cases y <;> cases z <;> simp only [cmpParsed] at h1 h2 ⊢ <;>
      first
        | exact TransCmp.le_trans h1 h2
        | simp_all

instance : TransCmp semverCmpO :=
  inferInstanceAs (TransCmp (Ordering.byKey verKey? (cmpParsed cmpKey)))

instance : IsTotal String svLE where
  total a b := by
    by_cases h : semverCmpO b a = .lt
    · exact Or.inr (by simp [svLE, OrientedCmp.cmp_eq_gt.2 h])
    · exact Or.inl h

instance : IsTrans String svLE where
  trans _ _ _ h1 h2 := TransCmp.ge_trans h2 h1

theorem mem_getLastD (a : α) (t : List α) (d : α) : (a :: t).getLastD d ∈ a :: t := by
  induction t generalizing a d with
  | nil => simp
  | cons b t ih =>
    rw [List.getLastD_cons]
    exact List.mem_cons_of_mem a (ih b a)

theorem pairwise_rel_getLastD {R : α → α → Prop} :
    ∀ (a : α) (t : List α) (d : α), (a :: t).Pairwise R →
      ∀ x ∈ a :: t, x = (a :: t).getLastD d ∨ R x ((a :: t).getLastD d) := by
  intro a t
  induction t generalizing a with
  | nil =>
    intro d _ x hx
    rw [List.mem_singleton] at hx
    exact Or.inl (by simp [hx])
  | cons b t ih =>
    intro d hp x hx
    rw [List.getLastD_cons]
    rcases List.mem_cons.1 hx with rfl | hx'
    · exact Or.inr ((List.pairwise_cons.1 hp).1 _ (mem_getLastD b t x))
    · exact ih b a (List.pairwise_cons.1 hp).2 x hx'

theorem resolveVersion_of_ne (version : Version) (versions : List String)
    (h : version ≠ "") :
    resolveVersion version versions = (version, !(versions.contains version)) := by
  simp [resolveVersion, h]

theorem sendLoop_all_ok (net : Nat → StepResult) :
    ∀ (cmds : List Command) (i0 : Nat),
      (∀ j, j < cmds.length → stepOk net (i0 + j) = true) →
      sendLoop net cmds i0 =
        ⟨cmds, (List.range cmds.length).map (fun j => stepBody (net (i0 + j))), none⟩ := by
  intro cmds
  induction cmds with
  | nil => intro i0 _; rfl
  | cons c rest ih =>
    intro i0 h
    have h0 := h 0 (Nat.succ_pos _)
    rw [Nat.add_zero] at h0
    unfold stepOk at h0
    match hn : net i0 with
    | .reqErr e => simp [hn] at h0
    | .body content (some e) => simp [hn] at h0
    | .body content none =>
      have hrest : ∀ j, j < rest.length → stepOk net (i0 + 1 + j) = true := by
        intro j hj
        have := h (j + 1) (by simpa using Nat.succ_lt_succ hj)
        rwa [show i0 + (j + 1) = i0 + 1 + j by omega] at this
      have hprint :
          (List.range (c :: rest).length).map (fun j => stepBody (net (i0 + j))) =
            content :: (List.range rest.length).map (fun j => stepBody (net (i0 + 1 + j))) := by
        rw [List.length_cons, List.range_succ_eq_map, List.map_cons, List.map_map]
        refine congrArg₂ List.cons ?_ ?_
        · rw [Nat.add_zero, hn]; rfl
        · exact List.map_congr_left fun j _ =>
            congrArg (fun x => stepBody (net x)) (by omega)
      simp only [sendLoop, hn, ih (i0 + 1) hrest, hprint]

theorem sendLoop_first_fail (net : Nat → StepResult) :
    ∀ (cmds : List Command) (i0 k : Nat),
      k < cmds.length →
      (∀ j, j < k → stepOk net (i0 + j) = true) →
      stepOk net (i0 + k) = false →
      (sendLoop net cmds i0).sent = cmds.take (k + 1) ∧
      (sendLoop net cmds i0).result = stepErr (net (i0 + k)) ∧
      (sendLoop net cmds i0).printed =
        (List.range k).map (fun j => stepBody (net (i0 + j))) := by
  intro cmds
  induction cmds with
  | nil => intro i0 k hk _ _; exact absurd hk (by simp)
  | cons c rest ih =>
    intro i0 k hk hpre hfail
    cases k with
    | zero =>
      rw [Nat.add_zero] at hfail
      unfold stepOk at hfail
      match hn : net i0 with
      | .reqErr e => simp [sendLoop, hn, stepErr]
      | .body content (some e) => simp [sendLoop, hn, stepErr]
      | .body content none => rw [hn] at hfail; simp at hfail
    | succ k' =>
      have h0 := hpre 0 (Nat.succ_pos _)
      rw [Nat.add_zero] at h0
      unfold stepOk at h0
      match hn : net i0 with
      | .reqErr e => simp [hn] at h0
      | .body content (some e) => simp [hn] at h0
      | .body content none =>
        have hk' : k' < rest.length := by simpa using Nat.lt_of_succ_lt_succ hk
        have hpre' : ∀ j, j < k' → stepOk net (i0 + 1 + j) = true := by
          intro j hj
          have := hpre (j + 1) (Nat.succ_lt_succ hj)
          rwa [show i0 + (j + 1) = i0 + 1 + j by omega] at this
        have hfail' : stepOk net (i0 + 1 + k') = false := by
          rwa [show i0 + (k' + 1) = i0 + 1 + k' by omega] at hfail
        obtain ⟨hsent, hres, hpr⟩ := ih (i0 + 1) k' hk' hpre' hfail'
        refine ⟨?_, ?_, ?_⟩
        · simp [sendLoop, hn, hsent, List.take_succ_cons]
        · simp only [sendLoop, hn, hres]
          rw [show i0 + 1 + k' = i0 + (k' + 1) by omega]
        · have hprint :
              (List.range (k' + 1)).map (fun j => stepBody (net (i0 + j))) =
                content :: (List.range k').map (fun j => stepBody (net (i0 + 1 + j))) := by
            rw [List.range_succ_eq_map, List.map_cons, List.map_map]
            refine congrArg₂ List.cons ?_ ?_
            · rw [Nat.add_zero, hn]; rfl
            · exact List.map_congr_left fun j _ =>
                congrArg (fun x => stepBody (net x)) (by omega)
          simp only [sendLoop, hn, hpr, hprint]

theorem base62Loop_mem (rnd : Int → Int) :
    ∀ (num : Int) (b : List Char), (∀ c ∈ b, c ∈ base62sets.data) →
      ∀ c ∈ base62Loop rnd num b, c ∈ base62sets.data := by
  intro num b
  induction num, b using base62Loop.induct rnd with
  | case1 num b h ih =>
    intro hb c hc
    rw [base62Loop, dif_pos h] at hc
    refine ih ?_ c hc
    intro d hd
    rcases List.mem_cons.mp hd with rfl | hd'
    · have hlt : base62Digit rnd num < base62sets.data.length := by
        have hnn : 0 ≤ (rnd num).emod 62 := Int.emod_nonneg _ (by norm_num)
        have hub : (rnd num).emod 62 < 62 := Int.emod_lt_of_pos _ (by norm_num)
        exact (Int.toNat_lt hnn).mpr (by exact_mod_cast hub)
      rw [List.getD_eq_getElem base62sets.data '?' hlt]
      exact List.getElem_mem hlt
    · exact hb d hd'
  | case2 num b h =>
    intro hb c hc
    rw [base62Loop, dif_neg h] at hc
    exact hb c hc

theorem base62Loop_ne_nil (rnd : Int → Int) :
    ∀ (num : Int) (b : List Char), b ≠ [] → base62Loop rnd num b ≠ [] := by
  intro num b
  induction num, b using base62Loop.induct rnd with
  | case1 num b h ih =>
    intro _
    rw [base62Loop, dif_pos h]
    exact ih (by simp)
  | case2 num b h =>
    intro hb
    rw [base62Loop, dif_neg h]
    exact hb

/-! ### Claim C4 -/

/-- Claim C4 counterexample: with the empty string as the sole installed
version and no requested version, the code resolves to the empty string and
sets `needDownload` to true — not false as the claim states for every
nonempty installed list. -/
theorem resolveVersion_empty_string_counterexample :
    resolveVersion "" [""] = ("", true) := by decide

/-- Claim C4 (amended): for every resolution call with an empty requested
version and a nonempty installed list that does not contain the empty
string, the resolved version is an installed version that is maximal under
semantic-version ordering (no installed version compares strictly greater)
and `needDownload` is false; in particular, for
`["v4.9.0", "v5.0.0", "v5.1.0"]` the result is `("v5.1.0", false)`. -/
theorem resolveVersion_empty_picks_max (versions : List String)
    (hne : versions ≠ []) (hempty : "" ∉ versions) :
    (resolveVersion "" versions).1 ∈ versions ∧
    (∀ w ∈ versions, 0 ≤ semverCompare (resolveVersion "" versions).1 w) ∧
    (resolveVersion "" versions).2 = false ∧
    resolveVersion "" ["v4.9.0", "v5.0.0", "v5.1.0"] = ("v5.1.0", false) := by
  have hperm := List.perm_insertionSort svLE versions
  have hsorted := List.sorted_insertionSort svLE versions
  obtain ⟨a, t, hs⟩ : ∃ a t, List.insertionSort svLE versions = a :: t := by
    cases hcons : List.insertionSort svLE versions with
    | nil => exact absurd ((hcons ▸ hperm).symm.eq_nil) hne
    | cons a t => exact ⟨a, t, rfl⟩
  rw [hs] at hperm hsorted
  have hm_mem : (a :: t).getLastD "" ∈ versions :=
    hperm.mem_iff.mp (mem_getLastD a t "")
  have hm_ne : (a :: t).getLastD "" ≠ "" := fun h => hempty (h ▸ hm_mem)
  have hmax : ∀ w ∈ versions, 0 ≤ semverCompare ((a :: t).getLastD "") w := by
    intro w hw
    rcases pairwise_rel_getLastD a t "" hsorted w (hperm.mem_iff.mpr hw) with heq | hle
    · rw [heq]
      simp [semverCompare, OrientedCmp.cmp_refl]
    · replace hle : semverCmpO ((a :: t).getLastD "") w ≠ .lt := hle
      match hcm : semverCmpO ((a :: t).getLastD "") w with
      | .lt => exact absurd hcm hle
      | .eq => simp only [semverCompare, hcm]; decide
      | .gt => simp only [semverCompare, hcm]; decide
  have hres : resolveVersion "" versions = ((a :: t).getLastD "", false) := by
    simp only [resolveVersion]
    rw [hs]
    rw [if_pos (show True ∧ versions ≠ [] from ⟨trivial, hne⟩)]
    rw [if_neg hm_ne]
    rw [show versions.contains ((a :: t).getLastD "") = true from List.elem_iff.mpr hm_mem]
    rfl
  refine ⟨?_, ?_, ?_, by decide⟩
  · rw [hres]; exact hm_mem
  · rw [hres]; exact hmax
  · rw [hres]

/-- Claim C4 witness: the amended statement at the concrete installed list
of the claim, with the maximality conjunct instantiated at `"v4.9.0"`. -/
theorem resolveVersion_empty_picks_max_witness :
    (resolveVersion "" ["v4.9.0", "v5.0.0", "v5.1.0"]).1 ∈
      ["v4.9.0", "v5.0.0", "v5.1.0"] ∧
    0 ≤ semverCompare (resolveVersion "" ["v4.9.0", "v5.0.0", "v5.1.0"]).1 "v4.9.0" ∧
    (resolveVersion "" ["v4.9.0", "v5.0.0", "v5.1.0"]).2 = false ∧
    resolveVersion "" ["v4.9.0", "v5.0.0", "v5.1.0"] = ("v5.1.0", false) :=
  ⟨(resolveVersion_empty_picks_max ["v4.9.0", "v5.0.0", "v5.1.0"]
      (by decide) (by decide)).1,
   (resolveVersion_empty_picks_max ["v4.9.0", "v5.0.0", "v5.1.0"]
      (by decide) (by decide)).2.1 "v4.9.0" (by decide),
   (resolveVersion_empty_picks_max ["v4.9.0", "v5.0.0", "v5.1.0"]
      (by decide) (by decide)).2.2.1,
   (resolveVersion_empty_picks_max ["v4.9.0", "v5.0.0", "v5.1.0"]
      (by decide) (by decide)).2.2.2⟩

/-! ### Claim C5 -/

/-- Claim C5 counterexample: with the malformed installed version `"abc"`
(compared against `"v1.0.0"` while sorting), resolution does not fail at
all — there is no InvalidVersion error path — and `downloadIfMissing`
completes successfully. -/
theorem malformed_version_no_error :
    resolveVersion "" ["abc", "v1.0.0"] = ("v1.0.0", false) ∧
    (downloadIfMissing "tidb" "" (.ok ["abc", "v1.0.0"])
      ⟨.ok ⟨[], "v9.9.9"⟩, none, none, fun v => .ok ("bin/" ++ v)⟩).1 =
      .ok "bin/v1.0.0" :=
  ⟨by decide, rfl⟩

/-- Claim C5 (amended): malformed installed-version strings are not
rejected and produce no InvalidVersion error; a comparison orders a
malformed string strictly below every well-formed one and equal to any
other malformed one, and resolution completes normally — for installed
list `["abc", "v1.0.0"]` it resolves to `("v1.0.0", false)`. -/
theorem malformed_version_sorts_below (a b : String)
    (ha : verKey? a = none) (hb : verKey? b ≠ none) :
    semverCompare a b = -1 ∧ semverCompare b a = 1 ∧
    (∀ c, verKey? c = none → semverCompare a c = 0) ∧
    resolveVersion "" ["abc", "v1.0.0"] = ("v1.0.0", false) := by
  obtain ⟨kb, hkb⟩ := Option.ne_none_iff_exists'.mp hb
  refine ⟨?_, ?_, fun c hc => ?_, by decide⟩
  · simp [semverCompare, semverCmpO, Ordering.byKey, cmpParsed, ha, hkb]
  · simp [semverCompare, semverCmpO, Ordering.byKey, cmpParsed, ha, hkb]
  · simp [semverCompare, semverCmpO, Ordering.byKey, cmpParsed, ha, hc]

/-- Claim C5 witness: the amended statement at the malformed string `"abc"`
against the valid `"v1.0.0"`, with the invalid-equals-invalid conjunct
instantiated at `"zzz"`. -/
theorem malformed_version_sorts_below_witness :
    semverCompare "abc" "v1.0.0" = -1 ∧ semverCompare "v1.0.0" "abc" = 1 ∧
    semverCompare "abc" "zzz" = 0 ∧
    resolveVersion "" ["abc", "v1.0.0"] = ("v1.0.0", false) :=
  ⟨(malformed_version_sorts_below "abc" "v1.0.0" (by decide) (by decide)).1,
   (malformed_version_sorts_below "abc" "v1.0.0" (by decide) (by decide)).2.1,
   (malformed_version_sorts_below "abc" "v1.0.0" (by decide) (by decide)).2.2.1
      "zzz" (by decide),
   (malformed_version_sorts_below "abc" "v1.0.0" (by decide) (by decide)).2.2.2⟩

/-! ### Claim C8 -/

/-- Claim C8: an already-installed exact version short-circuits — no
catalog fetch and zero downloads; a non-installed exact version issues
exactly one download for `"component:version"`; an undetermined version
with nothing installed adopts the freshly fetched catalog's latest version
before that single download. -/
theorem downloadIfMissing_download_counts (component : String) (version : Version)
    (versions : List String) (env : RepoEnv) :
    (version ≠ "" → version ∈ versions →
      (downloadIfMissing component version (.ok versions) env).2 =
        ⟨false, false, []⟩) ∧
    (∀ m, version ≠ "" → version ∉ versions → env.componentVersions = .ok m →
      env.saveVersionsErr = none →
      (downloadIfMissing component version (.ok versions) env).2 =
        ⟨true, true, [component ++ ":" ++ version]⟩) ∧
    (∀ m, version = "" → versions = [] → env.componentVersions = .ok m →
      env.saveVersionsErr = none →
      (downloadIfMissing component version (.ok versions) env).2 =
        ⟨true, true, [component ++ ":" ++ m.latest]⟩) := by
  refine ⟨fun h hin => ?_, fun m h hnin hcv hsv => ?_, fun m h hnil hcv hsv => ?_⟩
  · simp [downloadIfMissing, resolveVersion_of_ne version versions h, hin]
  · rcases hde : env.downloadErr with _ | e <;>
      simp [downloadIfMissing, resolveVersion_of_ne version versions h, hnin, hcv, hsv,
        hde, h]
  · subst h
    subst hnil
    rcases hde : env.downloadErr with _ | e <;>
      simp [downloadIfMissing, resolveVersion, hcv, hsv, hde]

/-- Claim C8 witness: the three cases at concrete inputs. -/
theorem downloadIfMissing_download_counts_witness :
    (downloadIfMissing "tidb" "v5.0.0" (.ok ["v5.0.0"])
      ⟨.ok ⟨["v5.0.0"], "v5.0.0"⟩, none, none, fun v => .ok ("bin/" ++ v)⟩).2 =
      ⟨false, false, []⟩ ∧
    (downloadIfMissing "tidb" "v5.0.1" (.ok ["v5.0.0"])
      ⟨.ok ⟨["v5.0.1"], "v5.0.1"⟩, none, none, fun v => .ok ("bin/" ++ v)⟩).2 =
      ⟨true, true, ["tidb:v5.0.1"]⟩ ∧
    (downloadIfMissing "tidb" "" (.ok [])
      ⟨.ok ⟨["v5.0.1"], "v5.0.1"⟩, none, none, fun v => .ok ("bin/" ++ v)⟩).2 =
      ⟨true, true, ["tidb:v5.0.1"]⟩ :=
  ⟨(downloadIfMissing_download_counts "tidb" "v5.0.0" ["v5.0.0"] _).1
      (by decide) (by decide),
   (downloadIfMissing_download_counts "tidb" "v5.0.1" ["v5.0.0"] _).2.1
      ⟨["v5.0.1"], "v5.0.1"⟩ (by decide) (by decide) rfl rfl,
   (downloadIfMissing_download_counts "tidb" "" [] _).2.2
      ⟨["v5.0.1"], "v5.0.1"⟩ rfl rfl rfl rfl⟩

/-! ### Claim C1 -/

/-- Claim C1: scale-in, scale-out, and display dispatch to
`"127.0.0.1:" ++ port`, but partition and restart concatenate host and port
without the colon, so their commands are not posted at the address
`127.0.0.1:<port>` the claim states for every command type alike; the URL
in every case is `http://<addr>/command`. -/
theorem partition_restart_addr_missing_colon (port : Int) (args : List String)
    (pids : List Int) (opt : bootOptions) :
    (scaleIn pids port).2 = "127.0.0.1:" ++ toString port ∧
    (scaleOut opt port).2 = "127.0.0.1:" ++ toString port ∧
    (display port).2 = "127.0.0.1:" ++ toString port ∧
    (partition args port).2 = "127.0.0.1" ++ toString port ∧
    (restart args port).2 = "127.0.0.1" ++ toString port ∧
    (partition args port).2 ≠ "127.0.0.1:" ++ toString port ∧
    (restart args port).2 ≠ "127.0.0.1:" ++ toString port ∧
    (∀ addr, commandURL addr = "http://" ++ addr ++ "/command") := by
  have hlen : ∀ s : String, "127.0.0.1" ++ s ≠ "127.0.0.1:" ++ s := by
    intro s hcontra
    have h := congrArg String.length hcontra
    rw [String.length_append, String.length_append] at h
    rw [show ("127.0.0.1" : String).length = 9 from rfl,
      show ("127.0.0.1:" : String).length = 10 from rfl] at h
    omega
  exact ⟨rfl, rfl, rfl, rfl, rfl, hlen (toString port), hlen (toString port),
    fun _ => rfl⟩

/-! ### Claim C2 -/

/-- Claim C2: whenever the termination-signal observer wins the race, a
"tidb" child is sent SIGKILL regardless of which of the subscribed signals
was received, and a child of any other component kind is sent exactly the
signal received; the equality pins the delivered signal, so no other signal
is ever sent on this path. -/
theorem signal_race_kill_policy (component : String) (pid : Int) (s : Sig) :
    selectOutcome component pid (.signal s) =
      .kill pid (if component = "tidb" then Sig.sigkill else s) := by
  by_cases h : component = "tidb" <;> simp [selectOutcome, h]

/-! ### Claim C3 -/

/-- Claim C3 counterexample: a start failure with no observed pid (the
usual failure mode — `cmd.Start` fails before a process exists, so the
record keeps pid 0) skips metadata persistence entirely, contradicting
"metadata persistence attempted regardless of the start failure". -/
theorem persist_skipped_on_pidless_start_failure :
    (runPersistPhase (some ⟨"tidb", "t", 0, "bin/tidb", [], [], "wd"⟩)
      (some "start failed") none none).openAttempted = false := rfl

/-- Claim C3 (amended): the run command returns the primary launch/wait
error unchanged — a metadata open or encode failure is swallowed and never
masks it — and metadata persistence is attempted exactly when the launch
succeeded or the record exists with a nonzero observed pid; a process-start
failure still yields in the record whatever pid was observed. -/
theorem persist_never_masks_primary_error (p : Option process)
    (err openErr encodeErr : Option String) (q : process)
    (startErr : Option String) (pid : Int) :
    (runPersistPhase p err openErr encodeErr).returned = err ∧
    (runPersistPhase p err openErr encodeErr).openAttempted =
      (err.isNone || (match p with
        | some r => decide (r.Pid ≠ 0)
        | none => false)) ∧
    (launchFinish q startErr (some pid)).1.Pid = pid ∧
    (launchFinish q startErr none).1.Pid = q.Pid ∧
    (launchFinish q startErr (some pid)).2 = startErr ∧
    (launchFinish q startErr none).2 = startErr :=
  ⟨rfl, rfl, rfl, rfl, rfl, rfl⟩

/-! ### Claim C6 -/

/-- Claim C6: scale-out command building follows the fixed kind order pd,
tikv, pump, tiflash, tidb, ticdc, drainer, emitting `max(Num, 0)` identical
fully-configured commands per kind (so zero-count kinds emit nothing), and
the claim's instance — pd.Num=1, tidb.Num=2, all others 0 — yields exactly
one "pd" command followed by two identical "tidb" commands. -/
theorem buildCommands_kind_order (tp : CommandType) (opt : bootOptions) :
    buildCommands tp opt =
      List.replicate opt.pd.Num.toNat
        { CommandType := tp, ComponentID := "pd", Config := opt.pd } ++
      List.replicate opt.tikv.Num.toNat
        { CommandType := tp, ComponentID := "tikv", Config := opt.tikv } ++
      List.replicate opt.pump.Num.toNat
        { CommandType := tp, ComponentID := "pump", Config := opt.pump } ++
      List.replicate opt.tiflash.Num.toNat
        { CommandType := tp, ComponentID := "tiflash", Config := opt.tiflash } ++
      List.replicate opt.tidb.Num.toNat
        { CommandType := tp, ComponentID := "tidb", Config := opt.tidb } ++
      List.replicate opt.ticdc.Num.toNat
        { CommandType := tp, ComponentID := "ticdc", Config := opt.ticdc } ++
      List.replicate opt.drainer.Num.toNat
        { CommandType := tp, ComponentID := "drainer", Config := opt.drainer } ∧
    buildCommands ScaleOutCommandType
        { pd := { Num := 1, Host := "h", ConfigPath := "p.toml", BinPath := "pd-server" },
          tidb := { Num := 2, Host := "g", ConfigPath := "d.toml", BinPath := "tidb-server" } } =
      [{ CommandType := ScaleOutCommandType, ComponentID := "pd",
          Config := { Num := 1, Host := "h", ConfigPath := "p.toml", BinPath := "pd-server" } },
        { CommandType := ScaleOutCommandType, ComponentID := "tidb",
          Config := { Num := 2, Host := "g", ConfigPath := "d.toml", BinPath := "tidb-server" } },
        { CommandType := ScaleOutCommandType, ComponentID := "tidb",
          Config := { Num := 2, Host := "g", ConfigPath := "d.toml", BinPath := "tidb-server" } }] := by
  constructor
  · simp [buildCommands, List.append_assoc]
  · decide

/-! ### Claim C7 -/

/-- Claim C7: the dispatcher is strictly sequential and fail-fast — when
every round trip succeeds, all commands are sent in order and every body is
printed in order; the first failing round trip k is the last command ever
sent (the trace is `take (k+1)`), its error is returned, and only the k
earlier bodies were printed; scale-in with targets 111, 222 builds exactly
those two commands in order, and if the first send fails the second is
never sent. -/
theorem dispatch_sequential_failfast :
    (∀ (cmds : List Command) (net : Nat → StepResult),
      (∀ j, j < cmds.length → stepOk net j = true) →
      sendCommandsAndPrintResult cmds net =
        ⟨cmds, (List.range cmds.length).map (fun j => stepBody (net j)), none⟩) ∧
    (∀ (cmds : List Command) (net : Nat → StepResult) (k : Nat),
      k < cmds.length → (∀ j, j < k → stepOk net j = true) → stepOk net k = false →
      (sendCommandsAndPrintResult cmds net).sent = cmds.take (k + 1) ∧
      (sendCommandsAndPrintResult cmds net).result = stepErr (net k) ∧
      (sendCommandsAndPrintResult cmds net).printed =
        (List.range k).map (fun j => stepBody (net j))) ∧
    scaleInCommands [111, 222] =
      [{ CommandType := ScaleInCommandType, PID := 111 },
        { CommandType := ScaleInCommandType, PID := 222 }] ∧
    (∀ (net : Nat → StepResult) (e : String), net 0 = .reqErr e →
      sendCommandsAndPrintResult (scaleInCommands [111, 222]) net =
        ⟨[{ CommandType := ScaleInCommandType, PID := 111 }], [], some e⟩) := by
  refine ⟨?_, ?_, by decide, ?_⟩
  · intro cmds net h
    have := sendLoop_all_ok net cmds 0 (fun j hj => by simpa using h j hj)
    simpa [sendCommandsAndPrintResult] using this
  · intro cmds net k hk hpre hfail
    have := sendLoop_first_fail net cmds 0 k hk (fun j hj => by simpa using hpre j hj)
      (by simpa using hfail)
    simpa [sendCommandsAndPrintResult] using this
  · intro net e hnet
    simp [sendCommandsAndPrintResult, sendLoop, scaleInCommands, hnet]

/-- Claim C7 witness: a network that refuses the first connection leaves
exactly the first scale-in command sent, nothing printed, and that error
returned. -/
theorem dispatch_sequential_failfast_witness :
    sendCommandsAndPrintResult (scaleInCommands [111, 222])
      (fun _ => .reqErr "connection refused") =
      ⟨[{ CommandType := ScaleInCommandType, PID := 111 }], [],
        some "connection refused"⟩ :=
  dispatch_sequential_failfast.2.2.2 (fun _ => .reqErr "connection refused")
    "connection refused" rfl

/-! ### Claim C9 -/

/-- Claim C9 counterexample: field relevance is not enforced in the
representation — `Command` is one product type carrying every field for
every command type: the display command the code builds itself carries a
target-pid field and a config field (zero-valued), and a display command
with a stray target id is representable. -/
theorem command_fields_by_convention_only :
    displayCommand.PID = 0 ∧ displayCommand.Config = zeroConfig ∧
    (Command.mk DisplayCommandType 999 "tidb" zeroConfig).CommandType =
      DisplayCommandType :=
  ⟨rfl, rfl, rfl⟩

/-- Claim C9 (amended): per-type field exclusivity holds by zero-value
convention, not by representation: scale-in, partition and restart
commands set only the pid (component id and config stay zero-valued),
scale-out commands set only the component id and its configuration (pid
stays zero), and display sets nothing beyond the type. -/
theorem command_zero_value_convention (pids : List Int) (args : List String)
    (tp : CommandType) (opt : bootOptions) :
    (∀ c ∈ scaleInCommands pids, c.ComponentID = "" ∧ c.Config = zeroConfig) ∧
    (∀ c ∈ partitionCommands args, c.ComponentID = "" ∧ c.Config = zeroConfig) ∧
    (∀ c ∈ restartCommands args, c.ComponentID = "" ∧ c.Config = zeroConfig) ∧
    (∀ c ∈ buildCommands tp opt, c.PID = 0) ∧
    displayCommand = ⟨DisplayCommandType, 0, "", zeroConfig⟩ := by
  refine ⟨?_, ?_, ?_, ?_, rfl⟩
  · intro c hc
    obtain ⟨pid, _, rfl⟩ := List.mem_map.mp hc
    exact ⟨rfl, rfl⟩
  · intro c hc
    obtain ⟨arg, _, rfl⟩ := List.mem_map.mp hc
    exact ⟨rfl, rfl⟩
  · intro c hc
    obtain ⟨arg, _, rfl⟩ := List.mem_map.mp hc
    exact ⟨rfl, rfl⟩
  · intro c hc
    obtain ⟨pair, _, hcrep⟩ := List.mem_flatMap.mp hc
    rw [List.eq_of_mem_replicate hcrep]

/-- Claim C9 witness: the amended statement at concrete commands produced
by scale-in and scale-out builders. -/
theorem command_zero_value_convention_witness :
    ({ CommandType := ScaleInCommandType, PID := 111 } : Command).ComponentID = "" ∧
    ({ CommandType := ScaleInCommandType, PID := 111 } : Command).Config = zeroConfig ∧
    ({ CommandType := ScaleOutCommandType, ComponentID := "pd",
        Config := { Num := 1 } } : Command).PID = 0 :=
  ⟨((command_zero_value_convention [111] [] ScaleOutCommandType
      { pd := { Num := 1 } }).1
      { CommandType := ScaleInCommandType, PID := 111 } (by decide)).1,
   ((command_zero_value_convention [111] [] ScaleOutCommandType
      { pd := { Num := 1 } }).1
      { CommandType := ScaleInCommandType, PID := 111 } (by decide)).2,
   (command_zero_value_convention [111] [] ScaleOutCommandType
      { pd := { Num := 1 } }).2.2.2.1
      { CommandType := ScaleOutCommandType, ComponentID := "pd",
        Config := { Num := 1 } } (by decide)⟩

/-! ### Claim C10 -/

/-- Claim C10: for every positive timestamp and every float64 rounding, the
synthesized name computation terminates (it is a total function), yields a
nonempty string whose characters all belong to the 62-symbol alphabet, and
every alphabet index computed during the encoding is below 62 — even when
the rounding loses integer precision. -/
theorem base62Name_safe (rnd : Int → Int) (num : Int) (h : 0 < num) :
    base62Name rnd num ≠ "" ∧
    (∀ c ∈ (base62Name rnd num).data, c ∈ base62sets.data) ∧
    (∀ n : Int, base62Digit rnd n < 62) := by
  refine ⟨?_, ?_, ?_⟩
  · intro hcontra
    have hnil : base62Loop rnd num [] = [] := by
      have := congrArg String.data hcontra
      simpa [base62Name] using this
    rw [base62Loop, dif_pos h] at hnil
    exact base62Loop_ne_nil rnd _ _ (by simp) hnil
  · intro c hc
    exact base62Loop_mem rnd num [] (by simp) c (by simpa [base62Name] using hc)
  · intro n
    have hnn : 0 ≤ (rnd n).emod 62 := Int.emod_nonneg _ (by norm_num)
    have hub : (rnd n).emod 62 < 62 := Int.emod_lt_of_pos _ (by norm_num)
    exact (Int.toNat_lt hnn).mpr (by exact_mod_cast hub)

/-- Claim C10 witness: the property at the identity rounding and the
timestamp 62, with the index-bound conjunct instantiated at a value large
enough to exercise the remainder. -/
theorem base62Name_safe_witness :
    base62Name (fun n => n) 62 ≠ "" ∧
    base62Digit (fun n => n) 100 < 62 :=
  ⟨(base62Name_safe (fun n => n) 62 (by decide)).1,
   (base62Name_safe (fun n => n) 62 (by decide)).2.2 100⟩

end Tiup
